import Mathlib

/-
Verification development for the `@sourceregistry/node-opa` TypeScript client
(`src/index.ts`).  The client is a thin wrapper over the OPA REST API: every
method builds a URL (base URL + endpoint + query string), a header record and
an optional body, hands them to a shared request executor (`Client.request`),
and interprets the HTTP response.

The embedding below models:
  * JSON values and the host primitives `JSON.stringify` / `JSON.parse`
    (numeric literals are modelled as integers; the claims under study never
    exercise fractional numbers);
  * JS record (object-literal) merging as used for header composition;
  * the WHATWG `Headers` object (lower-cased names, `append`/`set`/`get`);
  * `URLSearchParams` (`set`, `append`, serialisation) together with the
    `application/x-www-form-urlencoded` percent-encoder and
    `encodeURIComponent`;
  * the request executor: URL assembly, header merging, the gzip body
    compression policy (the availability of the host `CompressionStream`
    primitive is an explicit boolean parameter), and response interpretation
    (2xx body parsing and non-2xx error-message construction);
  * the per-endpoint methods the claims refer to.
-/

namespace NodeOpa

/-- JSON values.  Mirrors the data manipulated by the client; numbers are
modelled as integers (the claims never involve fractional literals). -/
inductive Json where
  | null : Json
  | bool (b : Bool) : Json
  | num (n : Int) : Json
  | str (s : String) : Json
  | arr (elems : List Json) : Json
  | obj (fields : List (String × Json)) : Json

/-- Character of a list at an index, defaulting to `0`. -/
def charAt : List Char → Nat → Char
  | [], _ => '0'
  | c :: _, 0 => c
  | _ :: rest, n + 1 => charAt rest n

/-- Hex digit table used by the JSON string escaper (lower case, as
produced by `JSON.stringify` for control characters). -/
def hexDigitLower (n : Nat) : Char :=
  charAt "0123456789abcdef".data n

/-- Upper-case hex digit table, as produced by `encodeURIComponent` and the
`application/x-www-form-urlencoded` serialiser. -/
def hexDigitUpper (n : Nat) : Char :=
  charAt "0123456789ABCDEF".data n

/-- Escape one character the way `JSON.stringify` escapes characters inside
string literals. -/
def jsonEscapeChar (c : Char) : List Char :=
  if c = '"' then ['\\', '"']
  else if c = '\\' then ['\\', '\\']
  else if c = Char.ofNat 8 then ['\\', 'b']
  else if c = Char.ofNat 9 then ['\\', 't']
  else if c = Char.ofNat 10 then ['\\', 'n']
  else if c = Char.ofNat 12 then ['\\', 'f']
  else if c = Char.ofNat 13 then ['\\', 'r']
  else if c.toNat < 32 then
    ['\\', 'u', '0', '0', hexDigitLower (c.toNat / 16), hexDigitLower (c.toNat % 16)]
  else [c]

/-- Quote a string the way `JSON.stringify` quotes it. -/
def jsonQuote (s : String) : String :=
  String.mk ('"' :: s.data.foldr (fun c acc => jsonEscapeChar c ++ acc) ['"'])

/-- Comma-join a list of strings (used for array/object member lists). -/
def joinComma : List String → String
  | [] => ""
  | x :: xs => xs.foldl (fun acc y => acc ++ "," ++ y) x

/-- Fuel-indexed core of `JSON.stringify`.  The fuel only serves to make the
recursion over nested arrays/objects structural; `Json.stringify` supplies
enough fuel for the whole value. -/
def stringifyFuel : Nat → Json → String
  | 0, _ => ""
  | fuel + 1, j =>
    match j with
    | .null => "null"
    | .bool b => cond b "true" "false"
    | .num n => toString n
    | .str s => jsonQuote s
    | .arr elems => "[" ++ joinComma (elems.map (stringifyFuel fuel)) ++ "]"
    | .obj fields =>
        "\x7b" ++
          joinComma (fields.map (fun f => jsonQuote f.1 ++ ":" ++ stringifyFuel fuel f.2)) ++
          "\x7d"

/-- Model of the host primitive `JSON.stringify`.  The depth bound mirrors the
host engine's own call-stack limit (deeply nested values make the real
`JSON.stringify` throw); no value in this development comes near it. -/
def Json.stringify (j : Json) : String :=
  stringifyFuel 100000 j

/-- Skip JSON whitespace. -/
def skipWs : List Char → List Char
  | [] => []
  | c :: rest =>
    if c = ' ' ∨ c = Char.ofNat 9 ∨ c = Char.ofNat 10 ∨ c = Char.ofNat 13 then skipWs rest
    else c :: rest

/-- Decode one hex digit. -/
def hexVal (c : Char) : Option Nat :=
  if '0' ≤ c ∧ c ≤ '9' then some (c.toNat - '0'.toNat)
  else if 'a' ≤ c ∧ c ≤ 'f' then some (c.toNat - 'a'.toNat + 10)
  else if 'A' ≤ c ∧ c ≤ 'F' then some (c.toNat - 'A'.toNat + 10)
  else none

/-- Decode one escape sequence following a backslash inside a JSON string
literal; returns the decoded character and the remaining input. -/
def readEscape : List Char → Option (Char × List Char)
  | [] => none
  | e :: rest =>
    if e = '"' then some ('"', rest)
    else if e = '\\' then some ('\\', rest)
    else if e = '/' then some ('/', rest)
    else if e = 'b' then some (Char.ofNat 8, rest)
    else if e = 'f' then some (Char.ofNat 12, rest)
    else if e = 'n' then some (Char.ofNat 10, rest)
    else if e = 'r' then some (Char.ofNat 13, rest)
    else if e = 't' then some (Char.ofNat 9, rest)
    else if e = 'u' then
      match rest with
      | a :: b :: c :: d :: rest' => do
        let va ← hexVal a
        let vb ← hexVal b
        let vc ← hexVal c
        let vd ← hexVal d
        some (Char.ofNat (va * 4096 + vb * 256 + vc * 16 + vd), rest')
      | _ => none
    else none

/-- Read the body of a JSON string literal (after the opening quote) up to the
closing quote.  Fuel-indexed so the recursion stays structural. -/
def parseStringChars : Nat → List Char → Option (List Char × List Char)
  | 0, _ => none
  | _, [] => none
  | fuel + 1, c :: rest =>
    if c = '"' then some ([], rest)
    else if c = '\\' then do
      let (e, rest') ← readEscape rest
      let (cs, rest'') ← parseStringChars fuel rest'
      some (e :: cs, rest'')
    else do
      let (cs, rest') ← parseStringChars fuel rest
      some (c :: cs, rest')

/-- Take a maximal run of decimal digits. -/
def takeDigits : List Char → List Char × List Char
  | [] => ([], [])
  | c :: rest =>
    if c.isDigit then
      let (ds, r) := takeDigits rest
      (c :: ds, r)
    else ([], c :: rest)

/-- Numeric value of a digit run. -/
def digitsToNat (ds : List Char) : Nat :=
  ds.foldl (fun acc c => acc * 10 + (c.toNat - '0'.toNat)) 0

/-- Check that the input starts with the given literal characters and return
the rest. -/
def expectChars : List Char → List Char → Option (List Char)
  | [], rest => some rest
  | _, [] => none
  | l :: ls, c :: cs => if c = l then expectChars ls cs else none

/-- Parsing modes for the fuel-indexed JSON reader: a whole value, the tail of
an array (after the first element), or the tail of an object. -/
inductive PMode where
  | value : PMode
  | arrayTail : PMode
  | objectTail : PMode

/-- Fuel-indexed recursive-descent JSON reader, modelling the grammar accepted
by the host `JSON.parse` (integer-only numeric literals).  `arrayTail` and
`objectTail` return the remaining elements wrapped in `Json.arr` / `Json.obj`. -/
def parseP : Nat → PMode → List Char → Option (Json × List Char)
  | 0, _, _ => none
  | fuel + 1, .value, cs =>
    match skipWs cs with
    | [] => none
    | c :: rest =>
      if c = 'n' then (expectChars ['u', 'l', 'l'] rest).map (fun r => (Json.null, r))
      else if c = 't' then (expectChars ['r', 'u', 'e'] rest).map (fun r => (Json.bool true, r))
      else if c = 'f' then (expectChars ['a', 'l', 's', 'e'] rest).map (fun r => (Json.bool false, r))
      else if c = '"' then do
        let (body, rest') ← parseStringChars (fuel + 1) rest
        some (Json.str (String.mk body), rest')
      else if c = '[' then
        match skipWs rest with
        | ']' :: rest' => some (Json.arr [], rest')
        | rest' => do
          let (v, r) ← parseP fuel .value rest'
          let (tail, r') ← parseP fuel .arrayTail r
          match tail with
          | Json.arr vs => some (Json.arr (v :: vs), r')
          | _ => none
      else if c = '\x7b' then
        match skipWs rest with
        | '\x7d' :: rest' => some (Json.obj [], rest')
        | '"' :: rest' => do
          let (key, r) ← parseStringChars (fuel + 1) rest'
          match skipWs r with
          | ':' :: r' => do
            let (v, r'') ← parseP fuel .value r'
            let (tail, r''') ← parseP fuel .objectTail r''
            match tail with
            | Json.obj fs => some (Json.obj ((String.mk key, v) :: fs), r''')
            | _ => none
          | _ => none
        | _ => none
      else if c = '-' then
        match takeDigits rest with
        | ([], _) => none
        | (ds, r) => some (Json.num (-(digitsToNat ds : Int)), r)
      else if c.isDigit then
        let (ds, r) := takeDigits (c :: rest)
        some (Json.num (digitsToNat ds), r)
      else none
  | fuel + 1, .arrayTail, cs =>
    match skipWs cs with
    | ']' :: rest => some (Json.arr [], rest)
    | ',' :: rest => do
      let (v, r) ← parseP fuel .value rest
      let (tail, r') ← parseP fuel .arrayTail r
      match tail with
      | Json.arr vs => some (Json.arr (v :: vs), r')
      | _ => none
    | _ => none
  | fuel + 1, .objectTail, cs =>
    match skipWs cs with
    | '\x7d' :: rest => some (Json.obj [], rest)
    | ',' :: rest =>
      match skipWs rest with
      | '"' :: rest' => do
        let (key, r) ← parseStringChars (fuel + 1) rest'
        match skipWs r with
        | ':' :: r' => do
          let (v, r'') ← parseP fuel .value r'
          let (tail, r''') ← parseP fuel .objectTail r''
          match tail with
          | Json.obj fs => some (Json.obj ((String.mk key, v) :: fs), r''')
          | _ => none
        | _ => none
      | _ => none
    | _ => none

/-- Model of the host primitive `JSON.parse`: `some` on valid JSON text,
`none` when `JSON.parse` would throw. -/
def Json.parse (s : String) : Option Json :=
  match parseP (2 * s.length + 2) .value s.data with
  | some (v, rest) => if skipWs rest = [] then some v else none
  | none => none

/-! ### Percent encoders -/

/-- UTF-8 bytes of a character (as natural numbers below 256). -/
def utf8Bytes (c : Char) : List Nat :=
  let n := c.toNat
  if n < 128 then [n]
  else if n < 2048 then [192 + n / 64, 128 + n % 64]
  else if n < 65536 then [224 + n / 4096, 128 + n / 64 % 64, 128 + n % 64]
  else [240 + n / 262144, 128 + n / 4096 % 64, 128 + n / 64 % 64, 128 + n % 64]

/-- Percent-escape one byte, upper-case hex. -/
def percentByte (b : Nat) : List Char :=
  ['%', hexDigitUpper (b / 16 % 16), hexDigitUpper (b % 16)]

/-- Characters `encodeURIComponent` leaves unescaped:
alphanumerics and `- _ . ! ~ * ' ( )`. -/
def uriUnescaped (c : Char) : Bool :=
  (('A' ≤ c ∧ c ≤ 'Z') ∨ ('a' ≤ c ∧ c ≤ 'z') ∨ ('0' ≤ c ∧ c ≤ '9')) ∨
    c = '-' ∨ c = '_' ∨ c = '.' ∨ c = '!' ∨ c = '~' ∨ c = '*' ∨
    c = Char.ofNat 39 ∨ c = '(' ∨ c = ')'

/-- One character of `encodeURIComponent` output. -/
def encodeURIComponentChar (c : Char) : List Char :=
  if uriUnescaped c then [c]
  else (utf8Bytes c).foldr (fun b acc => percentByte b ++ acc) []

/-- Model of the host primitive `encodeURIComponent`. -/
def encodeURIComponent (s : String) : String :=
  String.mk (s.data.foldr (fun c acc => encodeURIComponentChar c ++ acc) [])

/-- Characters the `application/x-www-form-urlencoded` serialiser leaves
unescaped: alphanumerics and `* - . _`. -/
def formUnescaped (c : Char) : Bool :=
  (('A' ≤ c ∧ c ≤ 'Z') ∨ ('a' ≤ c ∧ c ≤ 'z') ∨ ('0' ≤ c ∧ c ≤ '9')) ∨
    c = '*' ∨ c = '-' ∨ c = '.' ∨ c = '_'

/-- One character of `application/x-www-form-urlencoded` output
(space becomes `+`). -/
def formEncodeChar (c : Char) : List Char :=
  if c = ' ' then ['+']
  else if formUnescaped c then [c]
  else (utf8Bytes c).foldr (fun b acc => percentByte b ++ acc) []

/-- The `application/x-www-form-urlencoded` percent-encoder used by
`URLSearchParams` serialisation. -/
def formEncode (s : String) : String :=
  String.mk (s.data.foldr (fun c acc => formEncodeChar c ++ acc) [])

/-! ### URLSearchParams -/

/-- Remove every entry with the given key. -/
def uspRemoveKey (l : List (String × String)) (k : String) : List (String × String) :=
  l.filter (fun e => !(e.1 == k))

/-- `URLSearchParams.set`: replace the value of the first entry with this key
in place and drop any later entries with it; append if the key is absent. -/
def uspSet : List (String × String) → String → String → List (String × String)
  | [], k, v => [(k, v)]
  | e :: rest, k, v =>
    if e.1 = k then (k, v) :: uspRemoveKey rest k
    else e :: uspSet rest k v

/-- `URLSearchParams.append`. -/
def uspAppend (l : List (String × String)) (k v : String) : List (String × String) :=
  l ++ [(k, v)]

/-- Ampersand-join. -/
def joinAmp : List String → String
  | [] => ""
  | x :: xs => xs.foldl (fun acc y => acc ++ "&" ++ y) x

/-- `URLSearchParams.toString`: form-url-encode each name and value. -/
def uspToString (l : List (String × String)) : String :=
  joinAmp (l.map (fun e => formEncode e.1 ++ "=" ++ formEncode e.2))

/-! ### JS records and the Headers object -/

/-- One assignment into a JS object literal: replace the value at the first
occurrence of the key, keeping its position, or add the key at the end. -/
def recordSet : List (String × String) → String → String → List (String × String)
  | [], k, v => [(k, v)]
  | e :: rest, k, v =>
    if e.1 = k then (k, v) :: rest
    else e :: recordSet rest k v

/-- Build a JS object from a sequence of entries (object-literal spread
semantics: entries are assigned left to right, later assignments to the same
key overwrite earlier ones). -/
def recordMerge (entries : List (String × String)) : List (String × String) :=
  entries.foldl (fun r e => recordSet r e.1 e.2) []

/-- ASCII lower-casing of one character (header names are ASCII). -/
def lowerChar (c : Char) : Char :=
  if 'A' ≤ c ∧ c ≤ 'Z' then Char.ofNat (c.toNat + 32) else c

/-- ASCII lower-casing, as applied to header names by the `Headers` object. -/
def lowerStr (s : String) : String :=
  String.mk (s.data.map lowerChar)

/-- Header names are normalised to lower case when stored in a `Headers`
object. -/
def lowerEntry (e : String × String) : String × String :=
  (lowerStr e.1, e.2)

/-- First-match association lookup: how a finished JS object is read. -/
def assocFirst : List (String × String) → String → Option String
  | [], _ => none
  | e :: rest, k => if e.1 = k then some e.2 else assocFirst rest k

/-- Last-match association lookup over an entry sequence: the value of the
last entry carrying the key — the specification's "later wins" reading of a
header composition sequence. -/
def lastAssoc (entries : List (String × String)) (k : String) : Option String :=
  assocFirst entries.reverse k

/-- The `Headers` constructor appends each entry of the record, lower-casing
names. -/
def headersOfRecord (r : List (String × String)) : List (String × String) :=
  r.foldl (fun hs e => hs ++ [lowerEntry e]) []

/-- All values stored under a (case-insensitive) header name. -/
def headersGetAll (hs : List (String × String)) (name : String) : List String :=
  (hs.filter (fun e => e.1 == lowerStr name)).map (fun e => e.2)

/-- `Headers.get`: `null` when absent, otherwise the stored values joined
with a comma and a space. -/
def headersGet (hs : List (String × String)) (name : String) : Option String :=
  match headersGetAll hs name with
  | [] => none
  | v :: vs => some (vs.foldl (fun acc x => acc ++ ", " ++ x) v)

/-- Remove every header entry with the given (already lower-cased) name. -/
def headersRemove (hs : List (String × String)) (k : String) : List (String × String) :=
  hs.filter (fun e => !(e.1 == k))

/-- Worker for `Headers.set` on an already lower-cased name. -/
def headersSetAux : List (String × String) → String → String → List (String × String)
  | [], k, v => [(k, v)]
  | e :: rest, k, v =>
    if e.1 = k then (k, v) :: headersRemove rest k
    else e :: headersSetAux rest k v

/-- `Headers.set`: lower-case the name, replace the first matching entry and
drop the rest, or append when absent. -/
def headersSet (hs : List (String × String)) (name v : String) : List (String × String) :=
  headersSetAux hs (lowerStr name) v

/-! ### Client configuration and the request executor -/

/-- Client configuration: base URL plus default headers
(`_config` in the source). -/
structure Config where
  baseUrl : String
  headers : List (String × String) := []

/-- Strip all trailing slashes (the constructor's
`baseUrl.replace(/\/+$/, '')`). -/
def stripTrailingSlashes (s : String) : String :=
  String.mk (s.data.reverse.dropWhile (fun c => c = '/')).reverse

/-- The `Client` constructor: copy the configuration, normalising the base
URL.  The configuration is never touched again afterwards. -/
def mkClientConfig (c : Config) : Config :=
  { c with baseUrl := stripTrailingSlashes c.baseUrl }

/-- A request body: either a plain string or the gzip byte stream obtained by
compressing a string (the bytes themselves are opaque; the constructor records
which text was compressed). -/
inductive Body where
  | str (s : String) : Body
  | gzipStream (original : String) : Body
deriving DecidableEq

/-- The `RequestInit` options accepted by the request executor: optional
method (`fetch` defaults to GET), call-specific header overrides, optional
body. -/
structure RequestInit where
  method : Option String := none
  headers : List (String × String) := []
  body : Option Body := none

/-- The `gzip` helper: if the `CompressionStream` primitive is available,
compress the text into a byte stream, otherwise return the original string. -/
def gzip (compressionAvailable : Bool) (text : String) : Body :=
  if compressionAvailable then Body.gzipStream text else Body.str text

/-- The two headers the executor always sets after spreading the
configuration's defaults. -/
def clientFixedHeaders : List (String × String) :=
  [("Accept", "application/json"), ("Accept-Encoding", "gzip")]

/-- The ordered entry sequence of the executor's header object literal:
configuration defaults, then the fixed client headers, then call-specific
overrides. -/
def requestHeaderEntries (cfgHeaders optHeaders : List (String × String)) :
    List (String × String) :=
  cfgHeaders ++ clientFixedHeaders ++ optHeaders

/-- The `Headers` object the executor builds:
`new Headers({...config.headers, Accept, Accept-Encoding, ...options.headers})`. -/
def buildHeaders (cfgHeaders optHeaders : List (String × String)) :
    List (String × String) :=
  headersOfRecord (recordMerge (requestHeaderEntries cfgHeaders optHeaders))

/-- Whether a (possibly absent) body is a byte stream. -/
def bodyIsStream : Option Body → Bool
  | some (Body.gzipStream _) => true
  | _ => false

/-- The single network call the executor hands to `fetch`. -/
structure FetchCall where
  url : String
  method : Option String
  headers : List (String × String)
  body : Option Body
  duplexHalf : Bool

/-- The compression guard's content-type test:
`headers.get('Content-Type')` is exactly `application/json` or
`application/json-patch+json`. -/
def contentTypeIsJson (hs : List (String × String)) : Prop :=
  headersGet hs "Content-Type" = some "application/json" ∨
    headersGet hs "Content-Type" = some "application/json-patch+json"

instance (hs : List (String × String)) : Decidable (contentTypeIsJson hs) := by
  unfold contentTypeIsJson
  infer_instance

/-- The executor's body-compression step (`Client.request` between header
construction and the `fetch` call): a non-empty plain-string body under a
JSON content type is handed to `gzip`; if that returns a byte stream the
body is replaced and `Content-Encoding: gzip` is set.  Note the JS
truthiness test `body && typeof body === 'string'`: an empty string body is
falsy and skips the branch.  Returns the final body, the final headers, and
whether the final body is a byte stream (which makes `fetch` use
`duplex: 'half'`). -/
def applyCompression (avail : Bool) (hs : List (String × String)) :
    Option Body → Option Body × List (String × String) × Bool
  | some (Body.str s) =>
    if s ≠ "" ∧ contentTypeIsJson hs then
      match gzip avail s with
      | Body.str _ => (some (Body.str s), hs, false)
      | Body.gzipStream o =>
          (some (Body.gzipStream o), headersSet hs "Content-Encoding" "gzip", true)
    else (some (Body.str s), hs, false)
  | b => (b, hs, bodyIsStream b)

/-- The request executor up to the `fetch` call (`Client.request` before the
response arrives): URL assembly, header merging, and the JSON body
compression policy. -/
def clientRequest (avail : Bool) (cfg : Config) (endpoint : String)
    (opts : RequestInit) : FetchCall :=
  let hs := buildHeaders cfg.headers opts.headers
  let res := applyCompression avail hs opts.body
  { url := cfg.baseUrl ++ endpoint, method := opts.method,
    headers := res.2.1, body := res.1, duplexHalf := res.2.2 }

/-- The method `fetch` actually uses (GET when the executor passes none). -/
def fetchMethod (fc : FetchCall) : String :=
  fc.method.getD "GET"

/-! ### Response interpretation -/

/-- An HTTP response as the executor sees it: status, status text, and body
text (reading the body can itself fail, which `Except.error` records). -/
structure Response where
  status : Nat
  statusText : String
  bodyText : Except Unit String

/-- JS truthiness of a JSON value. -/
def jsTruthy : Json → Bool
  | .null => false
  | .bool b => b
  | .num n => n != 0
  | .str s => s != ""
  | .arr _ => true
  | .obj _ => true

/-- Fuel-indexed JS string conversion (template-literal semantics): arrays
join their elements with commas, `null` elements become empty, objects print
as `[object Object]`. -/
def jsToStringFuel : Nat → Json → String
  | 0, _ => ""
  | fuel + 1, j =>
    match j with
    | .null => "null"
    | .bool b => cond b "true" "false"
    | .num n => toString n
    | .str s => s
    | .arr elems =>
        joinComma (elems.map (fun e =>
          match e with
          | .null => ""
          | e' => jsToStringFuel fuel e'))
    | .obj _ => "[object Object]"

/-- JS string conversion of a JSON value, as used by the template literal
appending the server message. -/
def jsToString (j : Json) : String :=
  jsToStringFuel 100000 j

/-- Last field with the given name of an object (`JSON.parse` keeps the last
duplicate key, so member access sees the last one), `none` on non-objects. -/
def lastField : List (String × Json) → String → Option Json
  | [], _ => none
  | (k', v) :: rest, k =>
    match lastField rest k with
    | some r => some r
    | none => if k' = k then some v else none

/-- JS member access `cause.message` on a parsed JSON value. -/
def jsonMember : Json → String → Option Json
  | .obj fields, k => lastField fields k
  | _, _ => none

/-- Base text of the error raised on a non-2xx response:
`OPA request failed: ${response.status} ${response.statusText}`. -/
def opaBaseMessage (r : Response) : String :=
  "OPA request failed: " ++ toString r.status ++ " " ++ r.statusText

/-- Decoration of the base error message from a parsed error body: a truthy
`message` member is appended after ` - `, anything else leaves the base
message. -/
def opaMessageFromCause (r : Response) (cause : Json) : String :=
  match jsonMember cause "message" with
  | some v =>
      if jsTruthy v then opaBaseMessage r ++ " - " ++ jsToString v
      else opaBaseMessage r
  | none => opaBaseMessage r

/-- Decoration of the base error message from the error body text: an empty
body is ignored (`if (bodyText)`), an unparseable body is swallowed by the
`catch`, and a parsed body is inspected for a `message` member. -/
def opaMessageFromBody (r : Response) (t : String) : String :=
  if t = "" then opaBaseMessage r
  else
    match Json.parse t with
    | none => opaBaseMessage r
    | some cause => opaMessageFromCause r cause

/-- The full message of the error raised on a non-2xx response: start from
the base status-line message, then best-effort read and JSON-parse the body;
a read failure is swallowed, leaving the base message. -/
def opaErrorMessage (r : Response) : String :=
  match r.bodyText with
  | .error _ => opaBaseMessage r
  | .ok t => opaMessageFromBody r t

/-- Boolean test that the first character list is an initial segment of the
second. -/
def charsLead : List Char → List Char → Bool
  | [], _ => true
  | _ :: _, [] => false
  | a :: as, b :: bs => a == b && charsLead as bs

/-- The outcome of one executor call after the response arrives. -/
inductive RequestOutcome where
  | ok (v : Json) : RequestOutcome
  | opaError (message : String) : RequestOutcome
  | jsonError : RequestOutcome
  | transportError : RequestOutcome

/-- Response interpretation of `Client.request`: non-2xx statuses raise an
`OPA request failed` error (best-effort decorated with the server's JSON
`message` field, read/parse failures of the error body swallowed); 2xx
responses yield `{}` for an empty body, the parsed JSON value for a valid
body, and a parse error otherwise. -/
def handleResponse (r : Response) : RequestOutcome :=
  if 200 ≤ r.status ∧ r.status ≤ 299 then
    match r.bodyText with
    | .error _ => .transportError
    | .ok t =>
      if t = "" then .ok (Json.obj [])
      else
        match Json.parse t with
        | some v => .ok v
        | none => .jsonError
  else
    .opaError (opaErrorMessage r)

/-! ### Policy API -/

/-- `policy.list`: `GET /v1/policies`. -/
def policyList (avail : Bool) (cfg : Config) : FetchCall :=
  clientRequest avail cfg "/v1/policies" {}

/-- Query parameters of `policy.get`. -/
def policyGetParams (pretty : Bool) : List (String × String) :=
  let params : List (String × String) := []
  if pretty then uspSet params "pretty" "true" else params

/-- Endpoint of `policy.get`. -/
def policyGetEndpoint (id : String) (pretty : Bool) : String :=
  "/v1/policies/" ++ encodeURIComponent id ++ "?" ++ uspToString (policyGetParams pretty)

/-- `policy.get`. -/
def policyGet (avail : Bool) (cfg : Config) (id : String) (pretty : Bool) : FetchCall :=
  clientRequest avail cfg (policyGetEndpoint id pretty) {}

/-- Query parameters shared by `policy.put` and `policy.delete`. -/
def policyPutParams (pretty metrics : Bool) : List (String × String) :=
  let params : List (String × String) := []
  let params := if pretty then uspSet params "pretty" "true" else params
  if metrics then uspSet params "metrics" "true" else params

/-- Endpoint shared by `policy.put` and `policy.delete`. -/
def policyPutEndpoint (id : String) (pretty metrics : Bool) : String :=
  "/v1/policies/" ++ encodeURIComponent id ++ "?" ++
    uspToString (policyPutParams pretty metrics)

/-- `policy.put`: `PUT` with the raw Rego text as a `text/plain` body. -/
def policyPut (avail : Bool) (cfg : Config) (id rego : String)
    (pretty metrics : Bool) : FetchCall :=
  clientRequest avail cfg (policyPutEndpoint id pretty metrics)
    { method := some "PUT",
      headers := [("Content-Type", "text/plain")],
      body := some (Body.str rego) }

/-- `policy.create` delegates to `policy.put`
(`create: (...args) => this.policy.put(...args)`). -/
def policyCreate : Bool → Config → String → String → Bool → Bool → FetchCall :=
  policyPut

/-- `policy.update` delegates to `policy.put`
(`update: (...args) => this.policy.put(...args)`). -/
def policyUpdate : Bool → Config → String → String → Bool → Bool → FetchCall :=
  policyPut

/-- `policy.delete`. -/
def policyDelete (avail : Bool) (cfg : Config) (id : String)
    (pretty metrics : Bool) : FetchCall :=
  clientRequest avail cfg (policyPutEndpoint id pretty metrics)
    { method := some "DELETE" }

/-! ### Data API -/

/-- The `explain` enum accepted by the evaluation endpoints. -/
inductive Explain where
  | notes : Explain
  | fails : Explain
  | full : Explain
  | debug : Explain
deriving DecidableEq

/-- Literal string value of an `explain` flag. -/
def Explain.toValue : Explain → String
  | .notes => "notes"
  | .fails => "fails"
  | .full => "full"
  | .debug => "debug"

/-- Options of `data.get`. -/
structure DataGetOptions where
  input : Option Json := none
  pretty : Bool := false
  provenance : Bool := false
  explain : Option Explain := none
  metrics : Bool := false
  instrument : Bool := false
  strictBuiltinErrors : Bool := false

/-- Query parameters of `data.get`, built in source order. -/
def dataGetParams (o : DataGetOptions) : List (String × String) :=
  let params : List (String × String) := []
  let params :=
    match o.input with
    | some j => uspSet params "input" (Json.stringify j)
    | none => params
  let params := if o.pretty then uspSet params "pretty" "true" else params
  let params := if o.provenance then uspSet params "provenance" "true" else params
  let params :=
    match o.explain with
    | some e => uspSet params "explain" e.toValue
    | none => params
  let params := if o.metrics then uspSet params "metrics" "true" else params
  let params := if o.instrument then uspSet params "instrument" "true" else params
  if o.strictBuiltinErrors then uspSet params "strict-builtin-errors" "true" else params

/-- Endpoint of `data.get`: the caller's path is interpolated verbatim. -/
def dataGetEndpoint (path : String) (o : DataGetOptions) : String :=
  "/v1/data/" ++ path ++ "?" ++ uspToString (dataGetParams o)

/-- `data.get`. -/
def dataGet (avail : Bool) (cfg : Config) (path : String) (o : DataGetOptions) : FetchCall :=
  clientRequest avail cfg (dataGetEndpoint path o) {}

/-- Options of `data.post` (same as `data.get` minus `input`). -/
structure DataPostOptions where
  pretty : Bool := false
  provenance : Bool := false
  explain : Option Explain := none
  metrics : Bool := false
  instrument : Bool := false
  strictBuiltinErrors : Bool := false

/-- Query parameters of `data.post`. -/
def dataPostParams (o : DataPostOptions) : List (String × String) :=
  let params : List (String × String) := []
  let params := if o.pretty then uspSet params "pretty" "true" else params
  let params := if o.provenance then uspSet params "provenance" "true" else params
  let params :=
    match o.explain with
    | some e => uspSet params "explain" e.toValue
    | none => params
  let params := if o.metrics then uspSet params "metrics" "true" else params
  let params := if o.instrument then uspSet params "instrument" "true" else params
  if o.strictBuiltinErrors then uspSet params "strict-builtin-errors" "true" else params

/-- Endpoint of `data.post`. -/
def dataPostEndpoint (path : String) (o : DataPostOptions) : String :=
  "/v1/data/" ++ path ++ "?" ++ uspToString (dataPostParams o)

/-- The `{input}` wrapper body of `data.post` (`JSON.stringify` drops an
`undefined` member). -/
def dataPostBody (input : Option Json) : Json :=
  Json.obj (match input with
    | some i => [("input", i)]
    | none => [])

/-- `data.post`: `POST` with a JSON `{input}` body. -/
def dataPost (avail : Bool) (cfg : Config) (path : String) (input : Option Json)
    (o : DataPostOptions) : FetchCall :=
  clientRequest avail cfg (dataPostEndpoint path o)
    { method := some "POST",
      body := some (Body.str (Json.stringify (dataPostBody input))),
      headers := [("Content-Type", "application/json")] }

/-- Endpoint of `data.webhook` (the v0 API). -/
def dataWebhookEndpoint (path : String) (pretty : Bool) : String :=
  "/v0/data/" ++ path ++ "?" ++ uspToString (policyGetParams pretty)

/-- `data.webhook`: `POST /v0/data/{path}` with the raw input as JSON body. -/
def dataWebhook (avail : Bool) (cfg : Config) (path : String) (input : Json)
    (pretty : Bool) : FetchCall :=
  clientRequest avail cfg (dataWebhookEndpoint path pretty)
    { method := some "POST",
      body := some (Body.str (Json.stringify input)),
      headers := [("Content-Type", "application/json")] }

/-- Query parameters of `data.put` / `data.delete`. -/
def dataPutParams (metrics : Bool) : List (String × String) :=
  let params : List (String × String) := []
  if metrics then uspSet params "metrics" "true" else params

/-- Endpoint of `data.put` / `data.delete`. -/
def dataPutEndpoint (path : String) (metrics : Bool) : String :=
  "/v1/data/" ++ path ++ "?" ++ uspToString (dataPutParams metrics)

/-- Headers of `data.put` (`If-None-Match: *` only when requested). -/
def dataPutHeaders (ifNoneMatch : Bool) : List (String × String) :=
  let headers := [("Content-Type", "application/json")]
  if ifNoneMatch then recordSet headers "If-None-Match" "*" else headers

/-- `data.put`: `PUT` with the JSON document as body. -/
def dataPut (avail : Bool) (cfg : Config) (path : String) (document : Json)
    (ifNoneMatch metrics : Bool) : FetchCall :=
  clientRequest avail cfg (dataPutEndpoint path metrics)
    { method := some "PUT",
      headers := dataPutHeaders ifNoneMatch,
      body := some (Body.str (Json.stringify document)) }

/-- Endpoint of `data.patch` (note: no query string at all). -/
def dataPatchEndpoint (path : String) : String :=
  "/v1/data/" ++ path

/-- `data.patch`: `PATCH` with a JSON Patch array body. -/
def dataPatch (avail : Bool) (cfg : Config) (path : String)
    (operations : List Json) : FetchCall :=
  clientRequest avail cfg (dataPatchEndpoint path)
    { method := some "PATCH",
      headers := [("Content-Type", "application/json-patch+json")],
      body := some (Body.str (Json.stringify (Json.arr operations))) }

/-- `data.delete`. -/
def dataDelete (avail : Bool) (cfg : Config) (path : String) (metrics : Bool) : FetchCall :=
  clientRequest avail cfg (dataPutEndpoint path metrics)
    { method := some "DELETE" }

/-! ### Query API -/

/-- Query parameters of `query.default`. -/
def queryDefaultParams (pretty : Bool) : List (String × String) :=
  let params : List (String × String) := []
  if pretty then uspSet params "pretty" "true" else params

/-- Endpoint of `query.default`. -/
def queryDefaultEndpoint (pretty : Bool) : String :=
  "/?" ++ uspToString (queryDefaultParams pretty)

/-- `query.default`: `POST /` with the raw input as JSON body. -/
def queryDefault (avail : Bool) (cfg : Config) (input : Json) (pretty : Bool) : FetchCall :=
  clientRequest avail cfg (queryDefaultEndpoint pretty)
    { method := some "POST",
      body := some (Body.str (Json.stringify input)),
      headers := [("Content-Type", "application/json")] }

/-- Query parameters of `query.adhoc`. -/
def queryAdhocParams (pretty : Bool) (explain : Option Explain) (metrics : Bool) :
    List (String × String) :=
  let params : List (String × String) := []
  let params := if pretty then uspSet params "pretty" "true" else params
  let params :=
    match explain with
    | some e => uspSet params "explain" e.toValue
    | none => params
  if metrics then uspSet params "metrics" "true" else params

/-- Endpoint of `query.adhoc`. -/
def queryAdhocEndpoint (pretty : Bool) (explain : Option Explain) (metrics : Bool) : String :=
  "/v1/query?" ++ uspToString (queryAdhocParams pretty explain metrics)

/-- The `{query, input}` body of `query.adhoc` (`JSON.stringify` drops an
`undefined` member). -/
def queryAdhocBody (query : String) (input : Option Json) : Json :=
  Json.obj (("query", Json.str query) :: (match input with
    | some i => [("input", i)]
    | none => []))

/-- `query.adhoc`: `POST /v1/query` with a JSON `{query, input}` body. -/
def queryAdhoc (avail : Bool) (cfg : Config) (query : String) (input : Option Json)
    (pretty : Bool) (explain : Option Explain) (metrics : Bool) : FetchCall :=
  clientRequest avail cfg (queryAdhocEndpoint pretty explain metrics)
    { method := some "POST",
      body := some (Body.str (Json.stringify (queryAdhocBody query input))),
      headers := [("Content-Type", "application/json")] }

/-! ### Compile API -/

/-- Query parameters of `compile.partialEval`. -/
def compilePartialEvalParams (pretty : Bool) (explain : Option Explain)
    (metrics instrument : Bool) : List (String × String) :=
  let params : List (String × String) := []
  let params := if pretty then uspSet params "pretty" "true" else params
  let params :=
    match explain with
    | some e => uspSet params "explain" e.toValue
    | none => params
  let params := if metrics then uspSet params "metrics" "true" else params
  if instrument then uspSet params "instrument" "true" else params

/-- Endpoint of `compile.partialEval`. -/
def compilePartialEvalEndpoint (pretty : Bool) (explain : Option Explain)
    (metrics instrument : Bool) : String :=
  "/v1/compile?" ++ uspToString (compilePartialEvalParams pretty explain metrics instrument)

/-- `compile.partialEval`: `POST /v1/compile` with the request as JSON body. -/
def compilePartialEval (avail : Bool) (cfg : Config) (req : Json) (pretty : Bool)
    (explain : Option Explain) (metrics instrument : Bool) : FetchCall :=
  clientRequest avail cfg (compilePartialEvalEndpoint pretty explain metrics instrument)
    { method := some "POST",
      body := some (Body.str (Json.stringify req)),
      headers := [("Content-Type", "application/json")] }

/-- Endpoint of `compile.filter`: the caller's path is interpolated verbatim
and there is no query string. -/
def compileFilterEndpoint (path : String) : String :=
  "/v1/compile/" ++ path

/-- `compile.filter`: `POST` with a JSON body and a caller-supplied `Accept`
header. -/
def compileFilter (avail : Bool) (cfg : Config) (path : String) (req : Json)
    (accept : String) : FetchCall :=
  clientRequest avail cfg (compileFilterEndpoint path)
    { method := some "POST",
      headers := [("Accept", accept), ("Content-Type", "application/json")],
      body := some (Body.str (Json.stringify req)) }

/-! ### Health API -/

/-- Query parameters of `health.check`; `exclude-plugin` entries are appended
(repeatable parameter). -/
def healthCheckParams (bundles plugins : Bool) (excludePlugin : List String) :
    List (String × String) :=
  let params : List (String × String) := []
  let params := if bundles then uspSet params "bundles" "true" else params
  let params := if plugins then uspSet params "plugins" "true" else params
  excludePlugin.foldl (fun l p => uspAppend l "exclude-plugin" p) params

/-- Endpoint of `health.check`. -/
def healthCheckEndpoint (bundles plugins : Bool) (excludePlugin : List String) : String :=
  "/health?" ++ uspToString (healthCheckParams bundles plugins excludePlugin)

/-- `health.check`. -/
def healthCheck (avail : Bool) (cfg : Config) (bundles plugins : Bool)
    (excludePlugin : List String) : FetchCall :=
  clientRequest avail cfg (healthCheckEndpoint bundles plugins excludePlugin) {}

/-- Endpoint of `health.custom`: the caller's name is interpolated verbatim. -/
def healthCustomEndpoint (name : String) : String :=
  "/health/" ++ name

/-- `health.custom`. -/
def healthCustom (avail : Bool) (cfg : Config) (name : String) : FetchCall :=
  clientRequest avail cfg (healthCustomEndpoint name) {}

/-! ### Config and Status APIs -/

/-- Query parameters of `config.get`. -/
def configGetParams (pretty : Bool) : List (String × String) :=
  let params : List (String × String) := []
  if pretty then uspSet params "pretty" "true" else params

/-- Endpoint of `config.get`. -/
def configGetEndpoint (pretty : Bool) : String :=
  "/v1/config?" ++ uspToString (configGetParams pretty)

/-- `config.get`. -/
def configGet (avail : Bool) (cfg : Config) (pretty : Bool) : FetchCall :=
  clientRequest avail cfg (configGetEndpoint pretty) {}

/-- Query parameters of `status.get`. -/
def statusGetParams (pretty : Bool) : List (String × String) :=
  let params : List (String × String) := []
  if pretty then uspSet params "pretty" "true" else params

/-- Endpoint of `status.get`. -/
def statusGetEndpoint (pretty : Bool) : String :=
  "/v1/status?" ++ uspToString (statusGetParams pretty)

/-- `status.get`. -/
def statusGet (avail : Bool) (cfg : Config) (pretty : Bool) : FetchCall :=
  clientRequest avail cfg (statusGetEndpoint pretty) {}

/-! ### Helper lemmas -/

/-- Whatever survives `dropWhile p` at the front does not satisfy `p`. -/
theorem dropWhile_head?_false {α : Type} (p : α → Bool) :
    ∀ (l : List α) (a : α), (l.dropWhile p).head? = some a → p a = false := by
  intro l
  induction l with
  | nil => intro a h; simp [List.dropWhile] at h
  | cons x xs ih =>
    intro a h
    by_cases hp : p x
    · rw [List.dropWhile_cons_of_pos hp] at h
      exact ih a h
    · rw [List.dropWhile_cons_of_neg hp] at h
      simp at h
      subst h
      simpa using hp

/-- The URL of every executor call is the configured base joined with the
endpoint. -/
theorem clientRequest_url (avail : Bool) (cfg : Config) (endpoint : String)
    (opts : RequestInit) :
    (clientRequest avail cfg endpoint opts).url = cfg.baseUrl ++ endpoint :=
  rfl

/-! ### Claims -/

/-- C7: the call `data.get('allow', {input: {user:'alice'}, explain:'full',
metrics:true})` issues a GET request whose endpoint (relative to the base
URL) is `/v1/data/allow?input=%7B%22user%22%3A%22alice%22%7D&explain=full&metrics=true`:
the input option is JSON-stringified and percent-encoded as the `input`
parameter, and the parameters appear in the order input, explain, metrics. -/
theorem claim7 :
    dataGetEndpoint "allow"
        { input := some (Json.obj [("user", Json.str "alice")]),
          explain := some Explain.full, metrics := true } =
      "/v1/data/allow?input=%7B%22user%22%3A%22alice%22%7D&explain=full&metrics=true"
    ∧ (dataGet false (mkClientConfig { baseUrl := "http://localhost:8181" }) "allow"
        { input := some (Json.obj [("user", Json.str "alice")]),
          explain := some Explain.full, metrics := true }).url =
      "http://localhost:8181/v1/data/allow?input=%7B%22user%22%3A%22alice%22%7D&explain=full&metrics=true"
    ∧ fetchMethod (dataGet false (mkClientConfig { baseUrl := "http://localhost:8181" }) "allow"
        { input := some (Json.obj [("user", Json.str "alice")]),
          explain := some Explain.full, metrics := true }) = "GET" :=
  ⟨rfl, rfl, rfl⟩

/-- C9: `policy.create` and `policy.update` delegate directly to
`policy.put`; for every combination of arguments they produce exactly the
same request. -/
theorem claim9 (avail : Bool) (cfg : Config) (id rego : String)
    (pretty metrics : Bool) :
    policyCreate avail cfg id rego pretty metrics = policyPut avail cfg id rego pretty metrics
    ∧ policyUpdate avail cfg id rego pretty metrics = policyPut avail cfg id rego pretty metrics :=
  ⟨rfl, rfl⟩

/-- C8: a client constructed with base URL `http://localhost:8181/` has
effective base `http://localhost:8181`; construction strips all trailing
slashes and only rewrites the base URL (the headers are taken over
unchanged, and nothing in the model mutates the configuration afterwards);
every request URL is the concatenation of the stored base and the endpoint;
and `policy.list()` on that client issues `GET http://localhost:8181/v1/policies`. -/
theorem claim8 :
    (mkClientConfig { baseUrl := "http://localhost:8181/" }).baseUrl = "http://localhost:8181"
    ∧ (∀ c : Config, (mkClientConfig c).headers = c.headers)
    ∧ (∀ (s : String) (c : Char),
        (stripTrailingSlashes s).data.getLast? = some c → c ≠ '/')
    ∧ (∀ (avail : Bool) (cfg : Config) (endpoint : String) (opts : RequestInit),
        (clientRequest avail cfg endpoint opts).url = cfg.baseUrl ++ endpoint)
    ∧ (policyList false (mkClientConfig { baseUrl := "http://localhost:8181/" })).url =
        "http://localhost:8181/v1/policies"
    ∧ fetchMethod (policyList false (mkClientConfig { baseUrl := "http://localhost:8181/" })) =
        "GET" := by
  refine ⟨rfl, fun c => rfl, ?_, clientRequest_url, rfl, rfl⟩
  intro s c h
  unfold stripTrailingSlashes at h
  rw [show (String.mk (s.data.reverse.dropWhile (fun c => c = '/')).reverse).data =
        (s.data.reverse.dropWhile (fun c => c = '/')).reverse from rfl,
      List.getLast?_reverse] at h
  have := dropWhile_head?_false (fun c => c = '/') (s.data.reverse) c h
  simpa using this

/-- C8 witness: the trailing-slash clause applied at the concrete input
`"http://x/"`, whose stripped form ends in `x`. -/
theorem claim8_witness :
    (stripTrailingSlashes "http://x/").data.getLast? = some 'x' ∧ ('x' : Char) ≠ '/' :=
  ⟨rfl, claim8.2.2.1 "http://x/" 'x' rfl⟩

/-- C1 counterexample: with configuration headers `{Accept: 'text/plain'}`
and no per-call overrides, the effective `Accept` header is the built-in
`application/json`, not the configured `text/plain` — the configuration does
NOT override the client's built-in defaults. -/
theorem claim1_counterexample :
    headersGet (buildHeaders [("Accept", "text/plain")] []) "Accept" ≠ some "text/plain"
    ∧ headersGet (buildHeaders [("Accept", "text/plain")] []) "Accept" =
        some "application/json" := by
  exact ⟨by decide, rfl⟩

/-- C1 (amended): configuration-supplied `Accept` / `Accept-Encoding` headers
do not override the client's built-in defaults — the fixed client headers are
assigned after the configuration spread and replace same-named configuration
entries, so the effective values are always `application/json` and `gzip`
unless a per-call override is given; per-call overrides do take effect. -/
theorem claim1 (v w a : String) :
    headersGet (buildHeaders [("Accept", v), ("Accept-Encoding", w)] []) "Accept" =
      some "application/json"
    ∧ headersGet (buildHeaders [("Accept", v), ("Accept-Encoding", w)] []) "Accept-Encoding" =
      some "gzip"
    ∧ headersGet (buildHeaders [("Accept", v), ("Accept-Encoding", w)] [("Accept", a)])
        "Accept" = some a :=
  ⟨rfl, rfl, rfl⟩

/-- Unfolding of the error message when the body text was read. -/
theorem opaErrorMessage_of_ok (r : Response) (t : String) (hbt : r.bodyText = .ok t) :
    opaErrorMessage r = opaMessageFromBody r t := by
  unfold opaErrorMessage
  rw [hbt]

/-- Unfolding of the error message when reading the body text failed. -/
theorem opaErrorMessage_of_error (r : Response) (e : Unit) (hbt : r.bodyText = .error e) :
    opaErrorMessage r = opaBaseMessage r := by
  unfold opaErrorMessage
  rw [hbt]

/-- Unfolding of the body decoration when the body parses. -/
theorem opaMessageFromBody_of_parse (r : Response) (t : String) (cause : Json)
    (h0 : t ≠ "") (hp : Json.parse t = some cause) :
    opaMessageFromBody r t = opaMessageFromCause r cause := by
  unfold opaMessageFromBody
  rw [if_neg h0, hp]

/-- Unfolding of the body decoration when the body does not parse. -/
theorem opaMessageFromBody_of_noparse (r : Response) (t : String)
    (hp : Json.parse t = none) :
    opaMessageFromBody r t = opaBaseMessage r := by
  unfold opaMessageFromBody
  by_cases h0 : t = ""
  · rw [if_pos h0]
  · rw [if_neg h0, hp]

/-- Unfolding of the body decoration on an empty body. -/
theorem opaMessageFromBody_of_empty (r : Response) :
    opaMessageFromBody r "" = opaBaseMessage r := by
  unfold opaMessageFromBody
  rw [if_pos rfl]

/-- Unfolding of the cause decoration for a truthy `message` member. -/
theorem opaMessageFromCause_of_message (r : Response) (cause v : Json)
    (hm : jsonMember cause "message" = some v) (htr : jsTruthy v = true) :
    opaMessageFromCause r cause = opaBaseMessage r ++ " - " ++ jsToString v := by
  unfold opaMessageFromCause
  rw [hm]
  show (if jsTruthy v = true then opaBaseMessage r ++ " - " ++ jsToString v
        else opaBaseMessage r) = opaBaseMessage r ++ " - " ++ jsToString v
  rw [if_pos htr]

/-- Unfolding of the cause decoration when there is no `message` member. -/
theorem opaMessageFromCause_of_no_message (r : Response) (cause : Json)
    (hm : jsonMember cause "message" = none) :
    opaMessageFromCause r cause = opaBaseMessage r := by
  unfold opaMessageFromCause
  rw [hm]

/-- Unfolding of the cause decoration for a falsy `message` member. -/
theorem opaMessageFromCause_of_falsy (r : Response) (cause v : Json)
    (hm : jsonMember cause "message" = some v) (htr : ¬ jsTruthy v = true) :
    opaMessageFromCause r cause = opaBaseMessage r := by
  unfold opaMessageFromCause
  rw [hm]
  show (if jsTruthy v = true then opaBaseMessage r ++ " - " ++ jsToString v
        else opaBaseMessage r) = opaBaseMessage r
  rw [if_neg htr]

/-- The non-2xx error message always extends the base status-line message. -/
theorem opaErrorMessage_extends (r : Response) :
    ∃ rest, opaErrorMessage r = opaBaseMessage r ++ rest := by
  cases hbt : r.bodyText with
  | error e => exact ⟨"", by rw [opaErrorMessage_of_error r e hbt]; simp⟩
  | ok t =>
    by_cases h0 : t = ""
    · subst h0
      exact ⟨"", by rw [opaErrorMessage_of_ok r "" hbt, opaMessageFromBody_of_empty r]; simp⟩
    · cases hp : Json.parse t with
      | none =>
        exact ⟨"", by
          rw [opaErrorMessage_of_ok r t hbt, opaMessageFromBody_of_noparse r t hp]; simp⟩
      | some cause =>
        have hcause : opaErrorMessage r = opaMessageFromCause r cause := by
          rw [opaErrorMessage_of_ok r t hbt, opaMessageFromBody_of_parse r t cause h0 hp]
        cases hm : jsonMember cause "message" with
        | none =>
          exact ⟨"", by rw [hcause, opaMessageFromCause_of_no_message r cause hm]; simp⟩
        | some v =>
          by_cases htr : jsTruthy v = true
          · exact ⟨" - " ++ jsToString v, by
              rw [hcause, opaMessageFromCause_of_message r cause v hm htr,
                String.append_assoc]⟩
          · exact ⟨"", by rw [hcause, opaMessageFromCause_of_falsy r cause v hm htr]; simp⟩

/-- C2 counterexample: for the 404 response with empty body the raised
message is `OPA request failed: 404 Not Found`, which does not begin with
the numeric status `404` — it begins with the fixed `OPA request failed: `
prefix. -/
theorem claim2_counterexample :
    handleResponse { status := 404, statusText := "Not Found", bodyText := .ok "" } =
      RequestOutcome.opaError "OPA request failed: 404 Not Found"
    ∧ charsLead (toString (404 : Nat)).data "OPA request failed: 404 Not Found".data = false :=
  ⟨rfl, rfl⟩

/-- C2 (amended): for every response with HTTP status outside the 2xx range,
the request executor raises an error (never yields a value) whose message
begins with the fixed prefix `OPA request failed: ` followed by the numeric
status and status text; if the body parses as JSON carrying a truthy
`message` field, that server message is appended after ` - `; if reading or
parsing the error body fails (or the parsed value carries no usable message),
the failure is swallowed and the base status-line message is raised. -/
theorem claim2 (r : Response) (hfail : ¬ (200 ≤ r.status ∧ r.status ≤ 299)) :
    (∀ v, handleResponse r ≠ RequestOutcome.ok v)
    ∧ handleResponse r = RequestOutcome.opaError (opaErrorMessage r)
    ∧ (∃ rest, opaErrorMessage r = opaBaseMessage r ++ rest)
    ∧ (∀ t cause v, r.bodyText = .ok t → Json.parse t = some cause →
        jsonMember cause "message" = some v → jsTruthy v = true →
        opaErrorMessage r = opaBaseMessage r ++ " - " ++ jsToString v)
    ∧ (∀ t, r.bodyText = .ok t → Json.parse t = none →
        opaErrorMessage r = opaBaseMessage r)
    ∧ (∀ e, r.bodyText = .error e → opaErrorMessage r = opaBaseMessage r) := by
  have hmain : handleResponse r = RequestOutcome.opaError (opaErrorMessage r) := by
    unfold handleResponse
    rw [if_neg hfail]
  refine ⟨?_, hmain, opaErrorMessage_extends r, ?_, ?_, ?_⟩
  · intro v h
    rw [hmain] at h
    exact RequestOutcome.noConfusion h
  · intro t cause v hbt hparse hmem htr
    have h0 : t ≠ "" := by
      intro h
      rw [h] at hparse
      exact Option.noConfusion ((rfl : Json.parse "" = none).symm.trans hparse)
    rw [opaErrorMessage_of_ok r t hbt, opaMessageFromBody_of_parse r t cause h0 hparse,
      opaMessageFromCause_of_message r cause v hmem htr]
  · intro t hbt hparse
    rw [opaErrorMessage_of_ok r t hbt, opaMessageFromBody_of_noparse r t hparse]
  · intro e hbt
    exact opaErrorMessage_of_error r e hbt

/-- C2 witness: a 403 response with body `{"message": "denied"}` raises the
error `OPA request failed: 403 Forbidden - denied`. -/
theorem claim2_witness :
    handleResponse
        { status := 403, statusText := "Forbidden",
          bodyText := .ok "\x7b\"message\":\"denied\"\x7d" } =
      RequestOutcome.opaError "OPA request failed: 403 Forbidden - denied" := by
  have h := claim2
    { status := 403, statusText := "Forbidden",
      bodyText := .ok "\x7b\"message\":\"denied\"\x7d" } (by decide)
  have hmsg := h.2.2.2.1 "\x7b\"message\":\"denied\"\x7d"
    (Json.obj [("message", Json.str "denied")]) (Json.str "denied") rfl rfl rfl rfl
  rw [h.2.1, hmsg]
  rfl

/-- C5: for every 2xx response whose body text is read successfully, an
empty body yields the empty structure, a non-empty body that parses as JSON
yields the parsed value, and a non-empty body that is not valid JSON makes
the call fail with a parse error rather than yielding a value. -/
theorem claim5 (r : Response) (hok : 200 ≤ r.status ∧ r.status ≤ 299)
    (t : String) (ht : r.bodyText = .ok t) :
    (t = "" → handleResponse r = RequestOutcome.ok (Json.obj []))
    ∧ (∀ v, t ≠ "" → Json.parse t = some v → handleResponse r = RequestOutcome.ok v)
    ∧ (t ≠ "" → Json.parse t = none → handleResponse r = RequestOutcome.jsonError)
    ∧ (t ≠ "" → Json.parse t = none → ∀ v, handleResponse r ≠ RequestOutcome.ok v) := by
  have hmain : handleResponse r =
      (if t = "" then RequestOutcome.ok (Json.obj [])
       else
        match Json.parse t with
        | some v => RequestOutcome.ok v
        | none => RequestOutcome.jsonError) := by
    unfold handleResponse
    rw [if_pos hok, ht]
  refine ⟨?_, ?_, ?_, ?_⟩
  · intro h0
    rw [hmain, if_pos h0]
  · intro v h0 hparse
    rw [hmain, if_neg h0, hparse]
  · intro h0 hparse
    rw [hmain, if_neg h0, hparse]
  · intro h0 hparse v h
    rw [hmain, if_neg h0, hparse] at h
    exact RequestOutcome.noConfusion h

/-- C5 witness: concrete 200 responses — empty body yields `{}`, the body
`{"result":true}` yields its parsed value, and the body `nope` ends in a
parse error. -/
theorem claim5_witness :
    handleResponse { status := 200, statusText := "OK", bodyText := .ok "" } =
      RequestOutcome.ok (Json.obj [])
    ∧ handleResponse
        { status := 200, statusText := "OK", bodyText := .ok "\x7b\"result\":true\x7d" } =
      RequestOutcome.ok (Json.obj [("result", Json.bool true)])
    ∧ handleResponse { status := 200, statusText := "OK", bodyText := .ok "nope" } =
      RequestOutcome.jsonError :=
  ⟨(claim5 { status := 200, statusText := "OK", bodyText := .ok "" }
      (by decide) "" rfl).1 rfl,
   (claim5 { status := 200, statusText := "OK", bodyText := .ok "\x7b\"result\":true\x7d" }
      (by decide) "\x7b\"result\":true\x7d" rfl).2.1
      (Json.obj [("result", Json.bool true)]) (by decide) rfl,
   (claim5 { status := 200, statusText := "OK", bodyText := .ok "nope" }
      (by decide) "nope" rfl).2.2.1 (by decide) rfl⟩

/-- Removing a header name leaves nothing with that name. -/
theorem filter_headersRemove (l : List (String × String)) (k : String) :
    (headersRemove l k).filter (fun e => e.1 == k) = [] := by
  rw [List.filter_eq_nil_iff]
  intro a ha
  unfold headersRemove at ha
  have h2 := (List.mem_filter.mp ha).2
  simp at h2
  simp [h2]

/-- After `Headers.set` the only value stored under the written name is the
written value. -/
theorem headersSetAux_getAll (l : List (String × String)) (k v : String) :
    ((headersSetAux l k v).filter (fun e => e.1 == k)).map (fun e => e.2) = [v] := by
  induction l with
  | nil => simp [headersSetAux]
  | cons e rest ih =>
    by_cases he : e.1 = k
    · simp [headersSetAux, he, filter_headersRemove]
    · simp only [headersSetAux, if_neg he]
      rw [List.filter_cons_of_neg (by simp [he])]
      exact ih

/-- `Headers.get` after `Headers.set` returns exactly the value written. -/
theorem headersGet_headersSet_self (hs : List (String × String)) (name v : String) :
    headersGet (headersSet hs name v) name = some v := by
  unfold headersGet headersGetAll headersSet
  rw [headersSetAux_getAll]
  rfl

/-- Compression applies when the body is a non-empty string, the content type
is JSON, and the primitive is available. -/
theorem applyCompression_compressed (hs : List (String × String)) (s : String)
    (h : s ≠ "" ∧ contentTypeIsJson hs) :
    applyCompression true hs (some (Body.str s)) =
      (some (Body.gzipStream s), headersSet hs "Content-Encoding" "gzip", true) := by
  simp only [applyCompression]
  rw [if_pos h]
  rfl

/-- Without the compression primitive the original string body and headers
pass through unchanged. -/
theorem applyCompression_unavailable (hs : List (String × String)) (s : String) :
    applyCompression false hs (some (Body.str s)) = (some (Body.str s), hs, false) := by
  simp only [applyCompression]
  by_cases h : s ≠ "" ∧ contentTypeIsJson hs
  · rw [if_pos h]
    rfl
  · rw [if_neg h]

/-- A string body outside the compression guard passes through unchanged. -/
theorem applyCompression_skip (avail : Bool) (hs : List (String × String)) (s : String)
    (h : ¬ (s ≠ "" ∧ contentTypeIsJson hs)) :
    applyCompression avail hs (some (Body.str s)) = (some (Body.str s), hs, false) := by
  simp only [applyCompression]
  rw [if_neg h]

/-- C3 counterexample: with `CompressionStream` available, a JSON
`Content-Type`, and the (present, plain-string) body `''`, the executor does
NOT compress — the JS truthiness test `body && ...` rejects the empty
string — so the body stays a string and no `Content-Encoding` header is set,
contradicting the claimed if-and-only-if. -/
theorem claim3_counterexample :
    (clientRequest true { baseUrl := "http://localhost:8181" } "/v1/data/x"
        { method := some "POST", headers := [("Content-Type", "application/json")],
          body := some (Body.str "") }).body = some (Body.str "")
    ∧ (clientRequest true { baseUrl := "http://localhost:8181" } "/v1/data/x"
        { method := some "POST", headers := [("Content-Type", "application/json")],
          body := some (Body.str "") }).body ≠ some (Body.gzipStream "")
    ∧ headersGet (clientRequest true { baseUrl := "http://localhost:8181" } "/v1/data/x"
        { method := some "POST", headers := [("Content-Type", "application/json")],
          body := some (Body.str "") }).headers "Content-Encoding" = none
    ∧ contentTypeIsJson (buildHeaders [] [("Content-Type", "application/json")]) :=
  ⟨rfl, by decide, rfl, Or.inl rfl⟩

/-- C3 (amended): the executor gzip-compresses the body if and only if a
body is present, it is a NON-EMPTY plain string, the effective
`Content-Type` is exactly `application/json` or `application/json-patch+json`,
and the `CompressionStream` primitive is available; when compression happens
the body becomes a byte stream and `Content-Encoding: gzip` is set; when the
primitive is unavailable, or the content type is not JSON, the original
string is sent unchanged with the headers untouched (so no
`Content-Encoding` is added). -/
theorem claim3 (avail : Bool) (cfg : Config) (endpoint : String)
    (opts : RequestInit) (s : String) (hb : opts.body = some (Body.str s)) :
    ((clientRequest avail cfg endpoint opts).body = some (Body.gzipStream s) ↔
      (s ≠ "" ∧ contentTypeIsJson (buildHeaders cfg.headers opts.headers) ∧ avail = true))
    ∧ (s ≠ "" → contentTypeIsJson (buildHeaders cfg.headers opts.headers) → avail = true →
        (clientRequest avail cfg endpoint opts).headers =
          headersSet (buildHeaders cfg.headers opts.headers) "Content-Encoding" "gzip"
        ∧ headersGet (clientRequest avail cfg endpoint opts).headers "Content-Encoding" =
            some "gzip")
    ∧ (avail = false →
        (clientRequest avail cfg endpoint opts).body = some (Body.str s)
        ∧ (clientRequest avail cfg endpoint opts).headers = buildHeaders cfg.headers opts.headers)
    ∧ (¬ contentTypeIsJson (buildHeaders cfg.headers opts.headers) →
        (clientRequest avail cfg endpoint opts).body = some (Body.str s)
        ∧ (clientRequest avail cfg endpoint opts).headers =
            buildHeaders cfg.headers opts.headers) := by
  have hbody : (clientRequest avail cfg endpoint opts).body =
      (applyCompression avail (buildHeaders cfg.headers opts.headers) opts.body).1 := rfl
  have hheaders : (clientRequest avail cfg endpoint opts).headers =
      (applyCompression avail (buildHeaders cfg.headers opts.headers) opts.body).2.1 := rfl
  refine ⟨⟨?_, ?_⟩, ?_, ?_, ?_⟩
  · intro h
    by_cases hc : s ≠ "" ∧ contentTypeIsJson (buildHeaders cfg.headers opts.headers)
    · cases havail : avail with
      | false =>
        rw [hbody, hb, havail, applyCompression_unavailable] at h
        exact absurd h (by simp)
      | true => exact ⟨hc.1, hc.2, rfl⟩
    · rw [hbody, hb, applyCompression_skip avail _ s hc] at h
      exact absurd h (by simp)
  · rintro ⟨h1, h2, h3⟩
    subst h3
    rw [hbody, hb, applyCompression_compressed _ s ⟨h1, h2⟩]
  · intro h1 h2 h3
    subst h3
    constructor
    · rw [hheaders, hb, applyCompression_compressed _ s ⟨h1, h2⟩]
    · rw [hheaders, hb, applyCompression_compressed _ s ⟨h1, h2⟩]
      exact headersGet_headersSet_self _ "Content-Encoding" "gzip"
  · intro h3
    subst h3
    rw [hbody, hheaders, hb, applyCompression_unavailable]
    exact ⟨rfl, rfl⟩
  · intro hct
    have hc : ¬ (s ≠ "" ∧ contentTypeIsJson (buildHeaders cfg.headers opts.headers)) :=
      fun h => hct h.2
    rw [hbody, hheaders, hb, applyCompression_skip avail _ s hc]
    exact ⟨rfl, rfl⟩

/-- C3 witness: a POST with JSON content type and body `abc`, with the
compression primitive available, goes out as a gzip byte stream with
`Content-Encoding: gzip` set. -/
theorem claim3_witness :
    (clientRequest true { baseUrl := "http://localhost:8181" } "/x"
        { method := some "POST", headers := [("Content-Type", "application/json")],
          body := some (Body.str "abc") }).body = some (Body.gzipStream "abc")
    ∧ headersGet (clientRequest true { baseUrl := "http://localhost:8181" } "/x"
        { method := some "POST", headers := [("Content-Type", "application/json")],
          body := some (Body.str "abc") }).headers "Content-Encoding" = some "gzip" := by
  have h := claim3 true { baseUrl := "http://localhost:8181" } "/x"
    { method := some "POST", headers := [("Content-Type", "application/json")],
      body := some (Body.str "abc") } "abc" rfl
  exact ⟨h.1.mpr ⟨by decide, Or.inl rfl, rfl⟩, (h.2.1 (by decide) (Or.inl rfl) rfl).2⟩

/-- Membership in `URLSearchParams` after removing a key. -/
theorem mem_uspRemoveKey (l : List (String × String)) (k : String) (x : String × String) :
    x ∈ uspRemoveKey l k ↔ x ∈ l ∧ x.1 ≠ k := by
  unfold uspRemoveKey
  simp [List.mem_filter]

/-- Membership in `URLSearchParams` after `set`: the written pair is present,
and everything else survives exactly when its key differs from the written
one. -/
theorem mem_uspSet (l : List (String × String)) (k v : String) (x : String × String) :
    x ∈ uspSet l k v ↔ (x = (k, v) ∨ (x ∈ l ∧ x.1 ≠ k)) := by
  induction l with
  | nil => simp [uspSet]
  | cons e rest ih =>
    by_cases he : e.1 = k
    · simp only [uspSet, if_pos he, List.mem_cons]
      constructor
      · rintro (rfl | h)
        · exact Or.inl rfl
        · have h' := (mem_uspRemoveKey rest k x).mp h
          exact Or.inr ⟨Or.inr h'.1, h'.2⟩
      · rintro (rfl | ⟨(rfl | h2), h3⟩)
        · exact Or.inl rfl
        · exact absurd he h3
        · exact Or.inr ((mem_uspRemoveKey rest k x).mpr ⟨h2, h3⟩)
    · simp only [uspSet, if_neg he, List.mem_cons]
      constructor
      · rintro (rfl | h)
        · exact Or.inr ⟨Or.inl rfl, he⟩
        · rcases ih.mp h with h1 | ⟨h2, h3⟩
          · exact Or.inl h1
          · exact Or.inr ⟨Or.inr h2, h3⟩
      · rintro (rfl | ⟨(rfl | h2), h3⟩)
        · exact Or.inr (ih.mpr (Or.inl rfl))
        · exact Or.inl rfl
        · exact Or.inr (ih.mpr (Or.inr ⟨h2, h3⟩))

/-- Membership after appending one repeatable parameter per list element. -/
theorem mem_uspAppendFold (key : String) (ps : List String) :
    ∀ (params : List (String × String)) (x : String × String),
      x ∈ ps.foldl (fun l p => uspAppend l key p) params ↔
        (x ∈ params ∨ ∃ p ∈ ps, x = (key, p)) := by
  induction ps with
  | nil => intro params x; simp
  | cons p rest ih =>
    intro params x
    simp only [List.foldl_cons]
    rw [ih]
    simp [uspAppend, List.mem_append, or_assoc]

/-- C6: for every API method with optional flags, a boolean flag (`pretty`,
`provenance`, `metrics`, `instrument`, `strict-builtin-errors`, `bundles`,
`plugins`) appears in the query parameters — necessarily with value
`true` — if and only if the caller passed `true`, and the enum flag
`explain` appears with its literal string value exactly when provided.
The conjuncts cover, in order, the query-parameter builders of: `data.get`;
`query.adhoc`; `health.check`; `policy.get` and `data.webhook` (which share
the pretty-only builder `policyGetParams`); `policy.put` / `create` /
`update` / `delete` (which share `policyPutParams`); `data.post`;
`data.put` and `data.delete` (which share `dataPutParams`);
`query.default`; `compile.partialEval`; `config.get`; and `status.get`.
The remaining methods (`policy.list`, `data.patch`, `health.custom`,
`compile.filter`) take no optional flags and build no query parameters. -/
theorem claim6 :
    (∀ (input : Option Json) (ex : Option Explain) (pr pv mt ins sbe : Bool) (s : String),
      ((("pretty", s) ∈ dataGetParams ⟨input, pr, pv, ex, mt, ins, sbe⟩) ↔
        (pr = true ∧ s = "true"))
      ∧ ((("provenance", s) ∈ dataGetParams ⟨input, pr, pv, ex, mt, ins, sbe⟩) ↔
        (pv = true ∧ s = "true"))
      ∧ ((("metrics", s) ∈ dataGetParams ⟨input, pr, pv, ex, mt, ins, sbe⟩) ↔
        (mt = true ∧ s = "true"))
      ∧ ((("instrument", s) ∈ dataGetParams ⟨input, pr, pv, ex, mt, ins, sbe⟩) ↔
        (ins = true ∧ s = "true"))
      ∧ ((("strict-builtin-errors", s) ∈ dataGetParams ⟨input, pr, pv, ex, mt, ins, sbe⟩) ↔
        (sbe = true ∧ s = "true"))
      ∧ ((("explain", s) ∈ dataGetParams ⟨input, pr, pv, ex, mt, ins, sbe⟩) ↔
        (∃ e, ex = some e ∧ s = Explain.toValue e)))
    ∧ (∀ (ex : Option Explain) (pr mt : Bool) (s : String),
      ((("pretty", s) ∈ queryAdhocParams pr ex mt) ↔ (pr = true ∧ s = "true"))
      ∧ ((("metrics", s) ∈ queryAdhocParams pr ex mt) ↔ (mt = true ∧ s = "true"))
      ∧ ((("explain", s) ∈ queryAdhocParams pr ex mt) ↔
        (∃ e, ex = some e ∧ s = Explain.toValue e)))
    ∧ (∀ (b p : Bool) (excl : List String) (s : String),
      ((("bundles", s) ∈ healthCheckParams b p excl) ↔ (b = true ∧ s = "true"))
      ∧ ((("plugins", s) ∈ healthCheckParams b p excl) ↔ (p = true ∧ s = "true")))
    ∧ (∀ (pr : Bool) (s : String),
      (("pretty", s) ∈ policyGetParams pr) ↔ (pr = true ∧ s = "true"))
    ∧ (∀ (pr mt : Bool) (s : String),
      ((("pretty", s) ∈ policyPutParams pr mt) ↔ (pr = true ∧ s = "true"))
      ∧ ((("metrics", s) ∈ policyPutParams pr mt) ↔ (mt = true ∧ s = "true")))
    ∧ (∀ (ex : Option Explain) (pr pv mt ins sbe : Bool) (s : String),
      ((("pretty", s) ∈ dataPostParams ⟨pr, pv, ex, mt, ins, sbe⟩) ↔
        (pr = true ∧ s = "true"))
      ∧ ((("provenance", s) ∈ dataPostParams ⟨pr, pv, ex, mt, ins, sbe⟩) ↔
        (pv = true ∧ s = "true"))
      ∧ ((("metrics", s) ∈ dataPostParams ⟨pr, pv, ex, mt, ins, sbe⟩) ↔
        (mt = true ∧ s = "true"))
      ∧ ((("instrument", s) ∈ dataPostParams ⟨pr, pv, ex, mt, ins, sbe⟩) ↔
        (ins = true ∧ s = "true"))
      ∧ ((("strict-builtin-errors", s) ∈ dataPostParams ⟨pr, pv, ex, mt, ins, sbe⟩) ↔
        (sbe = true ∧ s = "true"))
      ∧ ((("explain", s) ∈ dataPostParams ⟨pr, pv, ex, mt, ins, sbe⟩) ↔
        (∃ e, ex = some e ∧ s = Explain.toValue e)))
    ∧ (∀ (mt : Bool) (s : String),
      (("metrics", s) ∈ dataPutParams mt) ↔ (mt = true ∧ s = "true"))
    ∧ (∀ (pr : Bool) (s : String),
      (("pretty", s) ∈ queryDefaultParams pr) ↔ (pr = true ∧ s = "true"))
    ∧ (∀ (ex : Option Explain) (pr mt ins : Bool) (s : String),
      ((("pretty", s) ∈ compilePartialEvalParams pr ex mt ins) ↔ (pr = true ∧ s = "true"))
      ∧ ((("metrics", s) ∈ compilePartialEvalParams pr ex mt ins) ↔ (mt = true ∧ s = "true"))
      ∧ ((("instrument", s) ∈ compilePartialEvalParams pr ex mt ins) ↔
        (ins = true ∧ s = "true"))
      ∧ ((("explain", s) ∈ compilePartialEvalParams pr ex mt ins) ↔
        (∃ e, ex = some e ∧ s = Explain.toValue e)))
    ∧ (∀ (pr : Bool) (s : String),
      (("pretty", s) ∈ configGetParams pr) ↔ (pr = true ∧ s = "true"))
    ∧ (∀ (pr : Bool) (s : String),
      (("pretty", s) ∈ statusGetParams pr) ↔ (pr = true ∧ s = "true")) := by
  refine ⟨?_, ?_, ?_, ?_, ?_, ?_, ?_, ?_, ?_, ?_, ?_⟩
  · intro input ex pr pv mt ins sbe s
    cases input <;> cases ex <;> cases pr <;> cases pv <;> cases mt <;> cases ins <;>
      cases sbe <;> simp [dataGetParams, mem_uspSet]
  · intro ex pr mt s
    cases ex <;> cases pr <;> cases mt <;> simp [queryAdhocParams, mem_uspSet]
  · intro b p excl s
    cases b <;> cases p <;> simp [healthCheckParams, mem_uspSet, mem_uspAppendFold]
  · intro pr s
    cases pr <;> simp [policyGetParams, mem_uspSet]
  · intro pr mt s
    cases pr <;> cases mt <;> simp [policyPutParams, mem_uspSet]
  · intro ex pr pv mt ins sbe s
    cases ex <;> cases pr <;> cases pv <;> cases mt <;> cases ins <;> cases sbe <;>
      simp [dataPostParams, mem_uspSet]
  · intro mt s
    cases mt <;> simp [dataPutParams, mem_uspSet]
  · intro pr s
    cases pr <;> simp [queryDefaultParams, mem_uspSet]
  · intro ex pr mt ins s
    cases ex <;> cases pr <;> cases mt <;> cases ins <;>
      simp [compilePartialEvalParams, mem_uspSet]
  · intro pr s
    cases pr <;> simp [configGetParams, mem_uspSet]
  · intro pr s
    cases pr <;> simp [statusGetParams, mem_uspSet]

/-- One JS object assignment, read back: the assigned key now maps to the
assigned value and every other key is untouched. -/
theorem assocFirst_recordSet (r : List (String × String)) (k v k' : String) :
    assocFirst (recordSet r k v) k' = if k' = k then some v else assocFirst r k' := by
  induction r with
  | nil =>
    by_cases h : k' = k
    · subst h; simp [recordSet, assocFirst]
    · have h' : ¬ (k = k') := fun hh => h hh.symm
      simp [recordSet, assocFirst, h, h']
  | cons e rest ih =>
    by_cases he : e.1 = k
    · by_cases h : k' = k
      · subst h; simp [recordSet, assocFirst, he]
      · have h' : ¬ (k = k') := fun hh => h hh.symm
        have h2 : ¬ (e.1 = k') := by rw [he]; exact h'
        simp [recordSet, assocFirst, he, h, h2, h']
    · by_cases h1 : e.1 = k'
      · have hk : ¬ (k' = k) := fun hh => he (h1.trans hh)
        simp [recordSet, assocFirst, he, h1, hk]
      · simp [recordSet, assocFirst, he, h1, ih]

/-- Building a JS object left to right and then reading a key returns the
value of the LAST entry with that key: object-literal composition is
"later wins". -/
theorem assocFirst_recordMerge (E : List (String × String)) (k : String) :
    assocFirst (recordMerge E) k = lastAssoc E k := by
  induction E using List.reverseRecOn with
  | nil => rfl
  | append_singleton E' e ih =>
    unfold recordMerge at ih ⊢
    rw [List.foldl_append]
    simp only [List.foldl_cons, List.foldl_nil]
    rw [assocFirst_recordSet]
    unfold lastAssoc
    rw [List.reverse_append]
    simp only [List.reverse_cons, List.reverse_nil, List.nil_append, List.singleton_append]
    by_cases h : k = e.1
    · simp [assocFirst, h]
    · have h' : ¬ (e.1 = k) := fun hh => h hh.symm
      unfold lastAssoc at ih
      simp [assocFirst, h, h', ih]

/-- Keys of a JS object after one assignment. -/
theorem recordSet_keys (r : List (String × String)) (k v : String) :
    ∀ x ∈ recordSet r k v, x.1 = k ∨ x.1 ∈ r.map Prod.fst := by
  induction r with
  | nil => simp [recordSet]
  | cons e rest ih =>
    intro x hx
    by_cases he : e.1 = k
    · rw [recordSet, if_pos he] at hx
      rcases List.mem_cons.mp hx with rfl | hx
      · exact Or.inl rfl
      · right
        rw [List.map_cons]
        exact List.mem_cons_of_mem _ (List.mem_map_of_mem Prod.fst hx)
    · rw [recordSet, if_neg he] at hx
      rcases List.mem_cons.mp hx with rfl | hx
      · right
        rw [List.map_cons]
        exact List.mem_cons_self _ _
      · rcases ih x hx with h1 | h1
        · exact Or.inl h1
        · right
          rw [List.map_cons]
          exact List.mem_cons_of_mem _ h1

/-- JS object assignment preserves key distinctness. -/
theorem recordSet_pairwiseNe (r : List (String × String)) (k v : String)
    (h : r.Pairwise (fun a b => a.1 ≠ b.1)) :
    (recordSet r k v).Pairwise (fun a b => a.1 ≠ b.1) := by
  induction r with
  | nil => simp [recordSet]
  | cons e rest ih =>
    rcases List.pairwise_cons.mp h with ⟨hhead, htail⟩
    by_cases he : e.1 = k
    · rw [recordSet, if_pos he]
      exact List.pairwise_cons.mpr ⟨fun x hx => by rw [← he]; exact hhead x hx, htail⟩
    · rw [recordSet, if_neg he]
      refine List.pairwise_cons.mpr ⟨?_, ih htail⟩
      intro x hx
      rcases recordSet_keys rest k v x hx with h1 | h1
      · rw [h1]; exact he
      · rcases List.mem_map.mp h1 with ⟨y, hy, hyx⟩
        rw [← hyx]; exact hhead y hy

/-- A JS object built by repeated assignment has pairwise-distinct keys. -/
theorem recordMerge_pairwise (E : List (String × String)) :
    (recordMerge E).Pairwise (fun a b => a.1 ≠ b.1) := by
  have aux : ∀ (l r : List (String × String)), r.Pairwise (fun a b => a.1 ≠ b.1) →
      (List.foldl (fun r e => recordSet r e.1 e.2) r l).Pairwise (fun a b => a.1 ≠ b.1) := by
    intro l
    induction l with
    | nil => intro r h; exact h
    | cons e rest ih =>
      intro r h
      exact ih _ (recordSet_pairwiseNe r e.1 e.2 h)
  exact aux E [] List.Pairwise.nil

/-- Every key of the merged object comes from the entry sequence. -/
theorem recordMerge_keys (E : List (String × String)) (x : String × String)
    (h : x ∈ recordMerge E) : x.1 ∈ E.map Prod.fst := by
  have aux : ∀ (l r : List (String × String)) (x : String × String),
      x ∈ List.foldl (fun r e => recordSet r e.1 e.2) r l →
      x.1 ∈ r.map Prod.fst ∨ x.1 ∈ l.map Prod.fst := by
    intro l
    induction l with
    | nil =>
      intro r x h
      exact Or.inl (List.mem_map_of_mem Prod.fst h)
    | cons e rest ih =>
      intro r x h
      rcases ih (recordSet r e.1 e.2) x h with h1 | h1
      · rcases List.mem_map.mp h1 with ⟨y, hy, hyx⟩
        rcases recordSet_keys r e.1 e.2 y hy with h2 | h2
        · right
          rw [← hyx, h2, List.map_cons]
          exact List.mem_cons_self _ _
        · left
          rw [← hyx]
          exact h2
      · right
        simp only [List.map_cons, List.mem_cons]
        exact Or.inr h1
  rcases aux E [] x h with h1 | h1
  · simp at h1
  · exact h1

/-- In a key-distinct object whose keys matching `k` case-insensitively are
spelled exactly `k`, the lower-cased `Headers` store holds exactly one entry
under `lowerStr k`, carrying the object's value for `k`. -/
theorem filter_lower_unique (l : List (String × String)) (k v : String)
    (hnd : l.Pairwise (fun a b => a.1 ≠ b.1))
    (hcanon : ∀ e ∈ l, lowerStr e.1 = lowerStr k → e.1 = k)
    (hfind : assocFirst l k = some v) :
    (l.map lowerEntry).filter (fun e => e.1 == lowerStr k) = [(lowerStr k, v)] := by
  induction l with
  | nil => exact absurd hfind (by simp [assocFirst])
  | cons e rest ih =>
    rcases List.pairwise_cons.mp hnd with ⟨hhead, htail⟩
    by_cases he : e.1 = k
    · have hv : e.2 = v := by
        have h2 := hfind
        unfold assocFirst at h2
        rw [if_pos he] at h2
        exact Option.some.inj h2
      simp only [List.map_cons]
      rw [List.filter_cons_of_pos (by simp [lowerEntry, he])]
      rw [show lowerEntry e = (lowerStr k, v) from by simp [lowerEntry, he, hv]]
      have htl : (rest.map lowerEntry).filter (fun e => e.1 == lowerStr k) = [] := by
        rw [List.filter_eq_nil_iff]
        intro a ha
        rcases List.mem_map.mp ha with ⟨y, hy, rfl⟩
        simp only [lowerEntry, beq_iff_eq]
        intro heq
        have hyk := hcanon y (List.mem_cons_of_mem e hy) heq
        exact hhead y hy (he.trans hyk.symm)
      rw [htl]
    · have h1 : ¬ (lowerStr e.1 = lowerStr k) :=
        fun hh => he (hcanon e (List.mem_cons_self e rest) hh)
      simp only [List.map_cons]
      rw [List.filter_cons_of_neg (by simp [lowerEntry, h1])]
      have hfind' : assocFirst rest k = some v := by
        have h2 := hfind
        unfold assocFirst at h2
        rw [if_neg he] at h2
        exact h2
      exact ih htail (fun y hy hh => hcanon y (List.mem_cons_of_mem e hy) hh) hfind'

/-- The `Headers` constructor stores the record's entries in order with
lower-cased names. -/
theorem headersOfRecord_eq_map (r : List (String × String)) :
    headersOfRecord r = r.map lowerEntry := by
  have aux : ∀ (l acc : List (String × String)),
      List.foldl (fun hs e => hs ++ [lowerEntry e]) acc l = acc ++ l.map lowerEntry := by
    intro l
    induction l with
    | nil => intro acc; simp
    | cons e rest ih => intro acc; simp [ih]
  simpa using aux r []

/-- C4: effective request headers are composed in the order configuration
defaults → fixed client headers (`Accept: application/json`,
`Accept-Encoding: gzip`) → call-specific overrides, a later entry replacing
an earlier one for the same header name (first conjunct, at the level of the
executor's header object literal); in particular a per-call `Accept`
override takes effect over both the configuration-level value and the
built-in default (second conjunct, at the level of the finished `Headers`
object, for any configuration whose `Accept`-like names use the canonical
spelling). -/
theorem claim4 :
    (∀ (cfgHeaders optHeaders : List (String × String)) (k : String),
      assocFirst (recordMerge (requestHeaderEntries cfgHeaders optHeaders)) k =
        lastAssoc (requestHeaderEntries cfgHeaders optHeaders) k)
    ∧ (∀ (cfgHeaders : List (String × String)) (a : String),
      (∀ e ∈ cfgHeaders, lowerStr e.1 = "accept" → e.1 = "Accept") →
      headersGet (buildHeaders cfgHeaders [("Accept", a)]) "Accept" = some a) := by
  constructor
  · intro cfgHeaders optHeaders k
    exact assocFirst_recordMerge _ k
  · intro cfgHeaders a hc
    have hfind : assocFirst (recordMerge (requestHeaderEntries cfgHeaders [("Accept", a)]))
        "Accept" = some a := by
      rw [assocFirst_recordMerge]
      unfold lastAssoc requestHeaderEntries
      rw [List.reverse_append]
      simp only [List.reverse_cons, List.reverse_nil, List.nil_append, List.singleton_append]
      simp [assocFirst]
    have hcanon : ∀ e ∈ recordMerge (requestHeaderEntries cfgHeaders [("Accept", a)]),
        lowerStr e.1 = lowerStr "Accept" → e.1 = "Accept" := by
      intro e he hl
      have hlow : lowerStr e.1 = "accept" := hl.trans rfl
      have hk := recordMerge_keys _ e he
      unfold requestHeaderEntries clientFixedHeaders at hk
      simp only [List.map_append, List.mem_append, List.map_cons, List.map_nil,
        List.mem_cons, List.not_mem_nil, or_false] at hk
      rcases hk with (hk | (hk | hk)) | hk
      · rcases List.mem_map.mp hk with ⟨y, hy, hyx⟩
        rw [← hyx]
        exact hc y hy (by rw [hyx]; exact hlow)
      · exact hk
      · rw [hk] at hlow
        exact absurd hlow (by decide)
      · exact hk
    have hnd := recordMerge_pairwise (requestHeaderEntries cfgHeaders [("Accept", a)])
    unfold buildHeaders
    rw [headersOfRecord_eq_map]
    unfold headersGet headersGetAll
    rw [filter_lower_unique _ "Accept" a hnd hcanon hfind]
    rfl

/-- C4 witness: a per-call `Accept: text/csv` override wins over both the
configuration's `Accept: text/html` and the built-in default. -/
theorem claim4_witness :
    headersGet (buildHeaders [("Accept", "text/html")] [("Accept", "text/csv")]) "Accept" =
      some "text/csv" :=
  claim4.2 [("Accept", "text/html")] "text/csv" (by decide)

/-- Indexing into a list avoiding a character also avoided by the default. -/
theorem charAt_ne (l : List Char) (c : Char) (hd : ('0' : Char) ≠ c)
    (hl : ∀ x ∈ l, x ≠ c) : ∀ n, charAt l n ≠ c := by
  induction l with
  | nil => intro n; exact hd
  | cons x rest ih =>
    intro n
    cases n with
    | zero => exact hl x (List.mem_cons_self x rest)
    | succ m => exact ih (fun y hy => hl y (List.mem_cons_of_mem x hy)) m

/-- No upper-case hex digit is a slash. -/
theorem hexDigitUpper_ne_slash (n : Nat) : hexDigitUpper n ≠ '/' :=
  charAt_ne "0123456789ABCDEF".data '/' (by decide) (by decide) n

/-- No character of a percent escape is a slash. -/
theorem mem_percentByte_ne_slash (b : Nat) : ∀ c ∈ percentByte b, c ≠ '/' := by
  intro c hc
  simp only [percentByte, List.mem_cons, List.not_mem_nil, or_false] at hc
  rcases hc with rfl | rfl | rfl
  · decide
  · exact hexDigitUpper_ne_slash _
  · exact hexDigitUpper_ne_slash _

/-- No character of a run of percent escapes is a slash. -/
theorem mem_percentFold_ne_slash (bs : List Nat) :
    ∀ c ∈ bs.foldr (fun b acc => percentByte b ++ acc) [], c ≠ '/' := by
  induction bs with
  | nil => simp
  | cons b rest ih =>
    intro c hc
    simp only [List.foldr_cons, List.mem_append] at hc
    rcases hc with hc | hc
    · exact mem_percentByte_ne_slash b c hc
    · exact ih c hc

/-- `encodeURIComponent` never emits a slash for any single character: the
slash is not in the unescaped set, and escapes consist of `%` and hex
digits. -/
theorem encodeURIComponentChar_ne_slash (ch : Char) :
    ∀ c ∈ encodeURIComponentChar ch, c ≠ '/' := by
  intro c hc
  unfold encodeURIComponentChar at hc
  by_cases h : uriUnescaped ch = true
  · rw [if_pos h] at hc
    simp only [List.mem_cons, List.not_mem_nil, or_false] at hc
    subst hc
    intro heq
    rw [heq] at h
    exact absurd h (by decide)
  · rw [if_neg h] at hc
    exact mem_percentFold_ne_slash _ c hc

/-- C10: the policy operations percent-encode the policy id with
`encodeURIComponent` before placing it in the URL path — the encoded id can
never contain a slash, and an id like `a/b` becomes `a%2Fb` — whereas the
data, compile and health operations interpolate the caller-supplied
path/name into the URL verbatim, with no encoding. -/
theorem claim10 :
    (∀ id : String, ∀ c ∈ (encodeURIComponent id).data, c ≠ '/')
    ∧ encodeURIComponent "a/b" = "a%2Fb"
    ∧ (∀ (id : String) (pretty : Bool),
        policyGetEndpoint id pretty =
          "/v1/policies/" ++ encodeURIComponent id ++ "?" ++
            uspToString (policyGetParams pretty))
    ∧ (∀ (id : String) (pretty metrics : Bool),
        policyPutEndpoint id pretty metrics =
          "/v1/policies/" ++ encodeURIComponent id ++ "?" ++
            uspToString (policyPutParams pretty metrics))
    ∧ (∀ (path : String) (o : DataGetOptions),
        dataGetEndpoint path o = "/v1/data/" ++ path ++ "?" ++ uspToString (dataGetParams o))
    ∧ (∀ (path : String) (o : DataPostOptions),
        dataPostEndpoint path o = "/v1/data/" ++ path ++ "?" ++ uspToString (dataPostParams o))
    ∧ (∀ (path : String) (pretty : Bool),
        dataWebhookEndpoint path pretty =
          "/v0/data/" ++ path ++ "?" ++ uspToString (policyGetParams pretty))
    ∧ (∀ (path : String) (metrics : Bool),
        dataPutEndpoint path metrics =
          "/v1/data/" ++ path ++ "?" ++ uspToString (dataPutParams metrics))
    ∧ (∀ path : String, dataPatchEndpoint path = "/v1/data/" ++ path)
    ∧ (∀ path : String, compileFilterEndpoint path = "/v1/compile/" ++ path)
    ∧ (∀ name : String, healthCustomEndpoint name = "/health/" ++ name)
    ∧ policyGetEndpoint "a/b" false = "/v1/policies/a%2Fb?"
    ∧ dataGetEndpoint "a/b" {} = "/v1/data/a/b?"
    ∧ compileFilterEndpoint "a/b" = "/v1/compile/a/b" := by
  refine ⟨?_, rfl, fun id pretty => rfl, fun id pretty metrics => rfl, fun path o => rfl,
    fun path o => rfl, fun path pretty => rfl, fun path metrics => rfl, fun path => rfl,
    fun path => rfl, fun name => rfl, rfl, rfl, rfl⟩
  intro id
  show ∀ c ∈ id.data.foldr (fun c acc => encodeURIComponentChar c ++ acc) [], c ≠ '/'
  induction id.data with
  | nil => simp
  | cons ch rest ih =>
    intro c hc
    simp only [List.foldr_cons, List.mem_append] at hc
    rcases hc with hc | hc
    · exact encodeURIComponentChar_ne_slash ch c hc
    · exact ih c hc

/-- C10 witness: the first character of `encodeURIComponent "a/b"` is in the
encoded output and is not a slash. -/
theorem claim10_witness :
    ('a' : Char) ∈ (encodeURIComponent "a/b").data ∧ ('a' : Char) ≠ '/' :=
  ⟨by decide, claim10.1 "a/b" 'a' (by decide)⟩

end NodeOpa
